import Mathlib

/-!
Verification of the collaborative-session layer of the google-docs-clone
backend (server.js socket handlers and the Document model).

Conventions of the embedding:
* JavaScript `Map` objects (insertion-ordered, `set` on an existing key
  overwrites in place) are modelled as association lists
  `List (String × β)` with `alistSet` / `alistGet` / `alistDelete`.
* Mongoose documents are modelled by `DocumentRecord`; the database is a
  `List DocumentRecord` searched by `_id`.
* `Option` models JavaScript `null`/`undefined`; a string option is
  JS-truthy when it is `some s` with `s ≠ ""`.
* Socket.io delivery: `socket.emit` targets one socket, `io.to(d).emit`
  targets every socket currently in room `d`, `socket.broadcast.to(d)`
  targets every socket in room `d` except the sender.  Room membership is
  interpreted through the session registry roster, which coincides with
  socket.io membership for the single-document-per-connection traffic the
  claims range over.
-/

namespace GDocs

abbrev UserId := String
abbrev SocketId := String
abbrev DocId := String

/-! ### JS-Map style association lists -/

def alistHas {β : Type} (m : List (String × β)) (k : String) : Bool :=
  m.any (fun e => e.1 == k)

def alistGet {β : Type} (m : List (String × β)) (k : String) : Option β :=
  (m.find? (fun e => e.1 == k)).map (fun e => e.2)

/-- `Map.set`: overwrite in place when the key is present, append otherwise. -/
def alistSet {β : Type} (m : List (String × β)) (k : String) (v : β) :
    List (String × β) :=
  if alistHas m k then m.map (fun e => if e.1 == k then (k, v) else e)
  else m ++ [(k, v)]

/-- `Map.delete`. -/
def alistDelete {β : Type} (m : List (String × β)) (k : String) :
    List (String × β) :=
  m.filter (fun e => !(e.1 == k))

/-- JS truthiness of an optional string: `undefined`, `null` and `""` are falsy. -/
def jsTruthy : Option String → Bool
  | some s => !(s == "")
  | none => false

/-! ### Persistent data model (Document.js) -/

inductive Permission where
  | owner
  | editor
  | viewer
deriving DecidableEq, Repr

structure Collaborator where
  user : Option UserId
  permission : Permission
deriving DecidableEq, Repr

structure ShareLink where
  token : Option String
  permission : Option Permission
  enabled : Bool
deriving DecidableEq, Repr

structure DocumentRecord where
  id : DocId
  data : String
  title : String
  owner : Option UserId
  collaborators : List Collaborator
  shareLink : Option ShareLink
deriving DecidableEq, Repr

def defaultValue : String := ""

def storeFind (store : List DocumentRecord) (id : DocId) :
    Option DocumentRecord :=
  store.find? (fun d => d.id == id)

/-- `document.save()`: write back the (mutated) record with the same `_id`. -/
def storeUpdate (store : List DocumentRecord) (id : DocId)
    (doc : DocumentRecord) : List DocumentRecord :=
  store.map (fun d => if d.id == id then doc else d)

/-- `Document.findByIdAndUpdate(id, { data })`. -/
def storeSetData (store : List DocumentRecord) (id : DocId) (data : String) :
    List DocumentRecord :=
  store.map (fun d => if d.id == id then { d with data := data } else d)

/-- The record `Document.create({ _id: id, data: defaultValue })` produces. -/
def newDocument (id : DocId) : DocumentRecord :=
  { id := id
    data := defaultValue
    title := "Untitled Document"
    owner := none
    collaborators := []
    shareLink := none }

def findOrCreateDocument (store : List DocumentRecord) (id : DocId) :
    DocumentRecord × List DocumentRecord :=
  match storeFind store id with
  | some d => (d, store)
  | none => (newDocument id, store ++ [newDocument id])

/-! ### Authorization checks of the get-document handler -/

/-- The authenticated user attached to the socket by the auth middleware. -/
structure AuthUser where
  id : UserId
  username : String
  email : String
deriving DecidableEq, Repr

/-- `document.owner && document.owner.toString() === authenticatedUser._id.toString()` -/
def isOwner (user : AuthUser) (doc : DocumentRecord) : Bool :=
  match doc.owner with
  | some o => o == user.id
  | none => false

/-- `document.collaborators.some(collab => collab.user && collab.user.toString() === ...)` -/
def collabMatches (uid : UserId) (c : Collaborator) : Bool :=
  match c.user with
  | some cu => cu == uid
  | none => false

def isCollaborator (user : AuthUser) (doc : DocumentRecord) : Bool :=
  doc.collaborators.any (collabMatches user.id)

/-- `shareToken && document.shareLink && document.shareLink.enabled &&
    document.shareLink.token === shareToken` -/
def hasValidShareToken (shareToken : Option String) (doc : DocumentRecord) :
    Bool :=
  jsTruthy shareToken &&
    (match doc.shareLink with
     | some sl => sl.enabled && sl.token == shareToken
     | none => false)

/-- The handler admits the request unless
    `!isOwner && !isCollaborator && !hasValidShareToken`. -/
def accessGranted (user : AuthUser) (shareToken : Option String)
    (doc : DocumentRecord) : Bool :=
  isOwner user doc || isCollaborator user doc ||
    hasValidShareToken shareToken doc

/-! ### Session-scoped state -/

/-- The value stored in `documentUsers.get(documentId)` under `socket.id`. -/
structure UserInfo where
  socketId : SocketId
  userId : UserId
  username : String
  email : String
  color : String
deriving DecidableEq, Repr

/-- The connection-local variables `currentDocumentId` / `currentUserInfo`. -/
structure ConnState where
  currentDocumentId : Option DocId
  currentUserInfo : Option UserInfo
deriving DecidableEq, Repr

def ConnState.fresh : ConnState :=
  { currentDocumentId := none, currentUserInfo := none }

/-- A room roster: `Map socketId -> userInfo`. -/
abbrev Roster := List (SocketId × UserInfo)

/-- `documentUsers : Map documentId -> roster`. -/
abbrev Registry := List (DocId × Roster)

/-- The public fields broadcast in `activeUsers` lists. -/
structure PublicUser where
  userId : UserId
  username : String
  color : String
deriving DecidableEq, Repr

def publicRoster (r : Roster) : List PublicUser :=
  r.map (fun e =>
    { userId := e.2.userId, username := e.2.username, color := e.2.color })

/-- A client `cursor-move` payload. `index = none` models a non-number
    `index`; the three identity fields model properties a client may also
    put in the payload, which the object spread `...cursorData` copies into
    the broadcast (overwriting what stands before them in the literal). -/
structure CursorData where
  index : Option Int
  length : Option Int
  userId : Option UserId
  username : Option String
  color : Option String
deriving DecidableEq, Repr

/-- `{ userId: ..., username: ..., color: ..., ...cursorData }`. -/
structure CursorBroadcast where
  userId : UserId
  username : String
  color : String
  index : Option Int
  length : Option Int
deriving DecidableEq, Repr

/-! ### Emitted events -/

inductive Event where
  | errorMsg (message : String)
  | loadDocument (data : String)
  | userJoined (user : PublicUser) (activeUsers : List PublicUser)
  | receiveChanges (delta : String)
  | cursorUpdate (payload : CursorBroadcast)
  | titleUpdate (title : String)
  | documentSaved
  | userLeft (userId : UserId) (username : String)
      (activeUsers : List PublicUser)
deriving DecidableEq, Repr

/-- Where an emit goes: `socket.emit`, `io.to(d).emit`,
    `socket.broadcast.to(d).emit`. -/
inductive Target where
  | only (sid : SocketId)
  | room (docId : DocId)
  | roomExcept (docId : DocId) (sid : SocketId)
deriving DecidableEq, Repr

structure Emit where
  target : Target
  event : Event
deriving DecidableEq, Repr

def rosterKeys (r : Roster) : List SocketId :=
  r.map (fun e => e.1)

/-- Interpretation of socket.io delivery against the registry: the sockets a
    target reaches at the moment the emit is issued. -/
def recipientsOf (reg : Registry) : Target → List SocketId
  | .only sid => [sid]
  | .room d => rosterKeys ((alistGet reg d).getD [])
  | .roomExcept d sid =>
      (rosterKeys ((alistGet reg d).getD [])).filter (fun k => !(k == sid))

/-! ### The server world and the socket handlers -/

structure World where
  store : List DocumentRecord
  documentUsers : Registry
deriving DecidableEq, Repr

structure HandlerResult where
  world : World
  conn : ConnState
  emits : List Emit
deriving DecidableEq, Repr

def accessDeniedEmit (sid : SocketId) : Emit :=
  { target := .only sid
    event := .errorMsg "You don't have permission to access this document" }

/-- The share-link redemption guard:
    `hasValidShareToken && !isOwner && !isCollaborator`. -/
def redeems (user : AuthUser) (shareToken : Option String)
    (document : DocumentRecord) : Bool :=
  hasValidShareToken shareToken document &&
    !(isOwner user document) && !(isCollaborator user document)

/-- `document.collaborators.push({user, permission}); await document.save()`
    when the guard holds, with
    `permission = document.shareLink.permission || 'viewer'`. -/
def redeemShare (user : AuthUser) (shareToken : Option String)
    (document : DocumentRecord) : DocumentRecord :=
  if redeems user shareToken document then
    { document with collaborators := document.collaborators ++
        [{ user := some user.id
           permission :=
             match document.shareLink with
             | some sl => sl.permission.getD .viewer
             | none => .viewer }] }
  else document

/-- `if (!documentUsers.has(documentId)) documentUsers.set(documentId, new Map())`. -/
def ensureRoom (reg : Registry) (documentId : DocId) : Registry :=
  if alistHas reg documentId then reg else alistSet reg documentId []

/-- The roster of `documentId` right after
    `documentUsers.get(documentId).set(socket.id, userInfo)`. -/
def joinRoster (reg : Registry) (documentId : DocId) (sid : SocketId)
    (info : UserInfo) : Roster :=
  alistSet ((alistGet (ensureRoom reg documentId) documentId).getD [])
    sid info

/-- The whole registry after the same mutation. -/
def joinRegistry (reg : Registry) (documentId : DocId) (sid : SocketId)
    (info : UserInfo) : Registry :=
  alistSet (ensureRoom reg documentId) documentId
    (joinRoster reg documentId sid info)

/-- The `userInfo` object built from the authenticated user. -/
def joinUserInfo (sid : SocketId) (user : AuthUser) (color : String) :
    UserInfo :=
  { socketId := sid
    userId := user.id
    username := user.username
    email := user.email
    color := color }

/-- The `get-document` handler.  `color` is the value `generateUserColor()`
    returned for this call (randomness passed in as a parameter). -/
def getDocument (w : World) (conn : ConnState) (sid : SocketId)
    (user : AuthUser) (documentId : DocId) (shareToken : Option String)
    (color : String) : HandlerResult :=
  let fc := findOrCreateDocument w.store documentId
  let document := fc.1
  if !(accessGranted user shareToken document) then
    { world := { store := fc.2, documentUsers := w.documentUsers }
      conn := conn
      emits := [accessDeniedEmit sid] }
  else
    let document1 := redeemShare user shareToken document
    let store2 :=
      if redeems user shareToken document then
        storeUpdate fc.2 documentId document1
      else fc.2
    let userInfo := joinUserInfo sid user color
    { world := { store := store2
                 documentUsers :=
                   joinRegistry w.documentUsers documentId sid userInfo }
      conn :=
        { currentDocumentId := some documentId
          currentUserInfo := some userInfo }
      emits :=
        [ { target := .only sid, event := .loadDocument document1.data },
          { target := .room documentId
            event := .userJoined
              { userId := userInfo.userId
                username := userInfo.username
                color := userInfo.color }
              (publicRoster
                (joinRoster w.documentUsers documentId sid userInfo)) } ] }

/-- The `send-changes` handler; `none` models a falsy `delta`. -/
def sendChanges (conn : ConnState) (sid : SocketId) (delta : Option String) :
    List Emit :=
  match delta with
  | none => []
  | some dl =>
       if jsTruthy conn.currentDocumentId then
         match conn.currentDocumentId with
         | some d => [{ target := .roomExcept d sid
                        event := .receiveChanges dl }]
         | none => []
       else []

/-- `{ userId: currentUserInfo.userId, username: ..., color: ...,
    ...cursorData }`: a field named in `cursorData` overrides the identity
    field written before it in the object literal. -/
def cursorPayload (cd : CursorData) (info : UserInfo) : CursorBroadcast :=
  { userId := cd.userId.getD info.userId
    username := cd.username.getD info.username
    color := cd.color.getD info.color
    index := cd.index
    length := cd.length }

/-- The `cursor-move` handler, spread included. -/
def cursorMove (conn : ConnState) (sid : SocketId)
    (cursorData : Option CursorData) : List Emit :=
  match cursorData with
  | none => []
  | some cd =>
    match cd.index with
    | none => []
    | some _ =>
      if jsTruthy conn.currentDocumentId then
        match conn.currentDocumentId, conn.currentUserInfo with
        | some d, some info =>
            [{ target := .roomExcept d sid
               event := .cursorUpdate (cursorPayload cd info) }]
        | _, _ => []
      else []

/-- The `title-change` handler; `!newTitle` drops the empty string. -/
def titleChange (conn : ConnState) (sid : SocketId) (newTitle : String) :
    List Emit :=
  if newTitle == "" then []
  else
    if jsTruthy conn.currentDocumentId then
      match conn.currentDocumentId with
      | some d => [{ target := .roomExcept d sid
                     event := .titleUpdate newTitle }]
      | none => []
    else []

/-- Outcome of the awaited `Document.findByIdAndUpdate` call: the promise
    either resolves or rejects with an error message. -/
inductive StoreOutcome where
  | ok
  | fail (message : String)
deriving DecidableEq, Repr

/-- The value passed to the acknowledgment callback. -/
inductive Ack where
  | ok
  | error (message : String)
deriving DecidableEq, Repr

structure SaveResult where
  world : World
  emits : List Emit
  ack : Ack
deriving DecidableEq, Repr

/-- The `save-document` handler. -/
def saveDocument (w : World) (conn : ConnState) (data : String)
    (outcome : StoreOutcome) : SaveResult :=
  if jsTruthy conn.currentDocumentId then
    match conn.currentDocumentId with
    | some d =>
      (match outcome with
       | .ok =>
         { world := { store := storeSetData w.store d data
                      documentUsers := w.documentUsers }
           emits := [{ target := .room d, event := .documentSaved }]
           ack := .ok }
       | .fail msg => { world := w, emits := [], ack := .error msg })
    | none => { world := w, emits := [], ack := .error "No document loaded" }
  else { world := w, emits := [], ack := .error "No document loaded" }

structure DisconnectResult where
  world : World
  emits : List Emit
deriving DecidableEq, Repr

/-- The `disconnect` handler. -/
def disconnect (w : World) (conn : ConnState) (sid : SocketId) :
    DisconnectResult :=
  if jsTruthy conn.currentDocumentId then
    match conn.currentDocumentId with
    | some d =>
      (match alistGet w.documentUsers d with
       | none => { world := w, emits := [] }
       | some users =>
         let disconnectedUser := alistGet users sid
         let users1 :=
           if alistHas users sid then alistDelete users sid else users
         let emits :=
           if alistHas users sid then
             match disconnectedUser with
             | some du =>
                 [{ target := .room d
                    event := .userLeft du.userId du.username
                      (publicRoster users1) }]
             | none => []
           else []
         let reg1 := alistSet w.documentUsers d users1
         let reg2 := if users1.length == 0 then alistDelete reg1 d else reg1
         { world := { store := w.store, documentUsers := reg2 }
           emits := emits })
    | none => { world := w, emits := [] }
  else { world := w, emits := [] }

/-! ### Trace semantics: a whole server run -/

/-- The server plus the connection-local state of every live socket. -/
structure Net where
  world : World
  conns : List (SocketId × ConnState)
deriving DecidableEq, Repr

def connOf (cs : List (SocketId × ConnState)) (sid : SocketId) : ConnState :=
  (alistGet cs sid).getD ConnState.fresh

inductive Op where
  | join (sid : SocketId) (user : AuthUser) (documentId : DocId)
      (shareToken : Option String) (color : String)
  | send (sid : SocketId) (delta : Option String)
  | save (sid : SocketId) (data : String) (outcome : StoreOutcome)
  | disc (sid : SocketId)
deriving DecidableEq, Repr

def stepOp (n : Net) : Op → Net
  | .join sid user documentId shareToken color =>
    let r := getDocument n.world (connOf n.conns sid) sid user documentId
      shareToken color
    { world := r.world, conns := alistSet n.conns sid r.conn }
  | .send _ _ => n
  | .save sid data outcome =>
    let r := saveDocument n.world (connOf n.conns sid) data outcome
    { world := r.world, conns := n.conns }
  | .disc sid =>
    let r := disconnect n.world (connOf n.conns sid) sid
    { world := r.world, conns := alistDelete n.conns sid }

/-- A freshly started server over an existing database `store0`:
    no socket connected, `documentUsers` empty. -/
def netStart (store0 : List DocumentRecord) : Net :=
  { world := { store := store0, documentUsers := [] }, conns := [] }

def runOps (store0 : List DocumentRecord) (ops : List Op) : Net :=
  ops.foldl stepOp (netStart store0)

/-! ### Specification-side definitions used by the claims -/

/-- No room present in `documentUsers` is empty. -/
def noEmptyRooms (n : Net) : Prop :=
  ∀ e ∈ n.world.documentUsers, e.2 ≠ []

/-- Every room's roster holds at most one entry per connection id. -/
def rosterKeysUnique (n : Net) : Prop :=
  ∀ e ∈ n.world.documentUsers, (rosterKeys e.2).Nodup

/-- C1's wording of the access decision: the identity equals the owner, or
    appears in the collaborators list, or a share token is provided that
    equals the grant's token while the grant is enabled. -/
def specAccessGranted (user : AuthUser) (shareToken : Option String)
    (doc : DocumentRecord) : Prop :=
  doc.owner = some user.id ∨
    (∃ c ∈ doc.collaborators, c.user = some user.id) ∨
    (∃ t sl, shareToken = some t ∧ doc.shareLink = some sl ∧
      sl.enabled = true ∧ sl.token = some t)

/-- Store-level sanity condition: a persisted share grant never carries the
    empty string as its token (the HTTP layer generates random hex tokens;
    the handler treats an empty supplied token as absent). -/
def noEmptyGrantToken (doc : DocumentRecord) : Bool :=
  match doc.shareLink with
  | some sl => !(sl.token == some "")
  | none => true

/-- How many collaborator entries of the stored document match a user id. -/
def collabCount (store : List DocumentRecord) (id : DocId) (uid : UserId) :
    Nat :=
  match storeFind store id with
  | some d => d.collaborators.countP (collabMatches uid)
  | none => 0

/-! ### Concrete fixtures used to exercise the theorems -/

/-- A document owned by user `u1`, no collaborators, no share link. -/
def docD1 : DocumentRecord :=
  { id := "d1", data := "x", title := "t", owner := some "u1"
    collaborators := [], shareLink := none }

/-- A document owned by `u1` with an enabled editor share link. -/
def docD2 : DocumentRecord :=
  { id := "d2", data := "y", title := "t", owner := some "u1"
    collaborators := []
    shareLink := some { token := some "tok", permission := some .editor
                        enabled := true } }

def aliceU1 : AuthUser := { id := "u1", username := "alice", email := "a@b" }

def bobU2 : AuthUser := { id := "u2", username := "bob", email := "b@b" }

/-- A world holding both fixture documents and an empty registry. -/
def worldD : World := { store := [docD1, docD2], documentUsers := [] }

def infoS1 : UserInfo :=
  { socketId := "s1", userId := "u1", username := "alice", email := "a@b"
    color := "#f00" }

def infoS2 : UserInfo :=
  { socketId := "s2", userId := "u2", username := "bob", email := "b@b"
    color := "#0f0" }

/-- A two-member roster for document `d1`. -/
def roomD1 : Roster := [("s1", infoS1), ("s2", infoS2)]

/-- A world where `s1` and `s2` are joined to `d1`. -/
def worldRoom : World :=
  { store := [docD1, docD2], documentUsers := [("d1", roomD1)] }

/-- The connection-local state of `s1` after joining `d1`. -/
def connS1 : ConnState :=
  { currentDocumentId := some "d1", currentUserInfo := some infoS1 }

/-! ### Association-list lemmas -/

theorem alistGet_eq_some_mem {β : Type} {m : List (String × β)} {k : String}
    {v : β} (h : alistGet m k = some v) : (k, v) ∈ m := by
  unfold alistGet at h
  cases hf : m.find? (fun e => e.1 == k) with
  | none => rw [hf] at h; simp at h
  | some e =>
    rw [hf] at h
    simp at h
    have hmem := List.mem_of_find?_eq_some hf
    have hkey := List.find?_some hf
    simp at hkey
    have : e = (k, v) := by
      cases e with
      | mk a b => simp at hkey h ⊢; exact ⟨hkey, h⟩
    rw [← this]; exact hmem

theorem alistHas_false_not_key {β : Type} {m : List (String × β)} {k : String}
    (h : alistHas m k = false) : ∀ e ∈ m, (e.1 == k) = false := by
  intro e he
  unfold alistHas at h
  rw [List.any_eq_false] at h
  have := h e he
  simpa using this

theorem mem_alistSet {β : Type} {m : List (String × β)} {k : String} {v : β}
    {e : String × β} (h : e ∈ alistSet m k v) :
    e = (k, v) ∨ (e ∈ m ∧ (e.1 == k) = false) := by
  unfold alistSet at h
  by_cases hh : alistHas m k
  · rw [if_pos hh] at h
    rcases List.mem_map.mp h with ⟨a, ha, rfl⟩
    by_cases hk : (a.1 == k) = true
    · left; rw [if_pos hk]
    · right
      rw [if_neg hk]
      exact ⟨ha, by simpa using hk⟩
  · rw [if_neg hh] at h
    rcases List.mem_append.mp h with h1 | h1
    · right
      exact ⟨h1, alistHas_false_not_key (by simpa using hh) e h1⟩
    · left; simpa using h1

theorem alistSet_ne_nil {β : Type} (m : List (String × β)) (k : String)
    (v : β) : alistSet m k v ≠ [] := by
  unfold alistSet
  by_cases hh : alistHas m k
  · rw [if_pos hh]
    intro hcon
    rw [List.map_eq_nil_iff] at hcon
    subst hcon
    simp [alistHas] at hh
  · rw [if_neg hh]
    simp

theorem find?_setMap_self {β : Type} {k : String} {v : β} :
    ∀ m : List (String × β), (m.any (fun e => e.1 == k)) = true →
      (m.map (fun e => if e.1 == k then (k, v) else e)).find?
        (fun e => e.1 == k) = some (k, v)
  | [], h => by simp at h
  | a :: as, h => by
    by_cases hk : (a.1 == k) = true
    · simp only [List.map_cons, if_pos hk]
      rw [List.find?_cons_of_pos _ (by simp)]
    · simp only [List.map_cons, if_neg hk]
      rw [List.find?_cons_of_neg _ (by simpa using hk)]
      apply find?_setMap_self as
      simp only [List.any_cons, hk, Bool.false_or] at h
      exact h

theorem find?_setMap_ne {β : Type} {k k' : String} {v : β}
    (hne : (k' == k) = false) :
    ∀ m : List (String × β),
      (m.map (fun e => if e.1 == k then (k, v) else e)).find?
        (fun e => e.1 == k') = m.find? (fun e => e.1 == k')
  | [] => by simp
  | a :: as => by
    have hkk' : ¬(k = k') := by
      intro hcon
      subst hcon
      simp at hne
    by_cases hk : (a.1 == k) = true
    · have ha : a.1 = k := by simpa using hk
      simp only [List.map_cons, if_pos hk]
      rw [List.find?_cons_of_neg _ (by simp [hkk']),
        List.find?_cons_of_neg _ (by simp [ha, hkk'])]
      exact find?_setMap_ne hne as
    · simp only [List.map_cons, if_neg hk]
      by_cases hk' : (a.1 == k') = true
      · rw [List.find?_cons_of_pos _ (by simpa using hk'),
          List.find?_cons_of_pos _ (by simpa using hk')]
      · rw [List.find?_cons_of_neg _ (by simpa using hk'),
          List.find?_cons_of_neg _ (by simpa using hk')]
        exact find?_setMap_ne hne as

theorem find?_append_single_self {β : Type} {k : String} {v : β} :
    ∀ m : List (String × β), (m.any (fun e => e.1 == k)) = false →
      (m ++ [(k, v)]).find? (fun e => e.1 == k) = some (k, v)
  | [], _ => by
    rw [List.nil_append, List.find?_cons_of_pos _ (by simp)]
  | a :: as, h => by
    simp only [List.any_cons, Bool.or_eq_false_iff] at h
    rw [List.cons_append, List.find?_cons_of_neg _ (by simp [h.1])]
    exact find?_append_single_self as h.2

theorem find?_append_single_ne {β : Type} {k k' : String} {v : β}
    (hne : (k' == k) = false) :
    ∀ m : List (String × β),
      (m ++ [(k, v)]).find? (fun e => e.1 == k') =
        m.find? (fun e => e.1 == k')
  | [] => by
    have hkk' : ¬(k = k') := by
      intro hcon
      subst hcon
      simp at hne
    rw [List.nil_append, List.find?_cons_of_neg _ (by simp [hkk']),
      List.find?_nil]
  | a :: as => by
    by_cases hk' : (a.1 == k') = true
    · rw [List.cons_append, List.find?_cons_of_pos _ (by simpa using hk'),
        List.find?_cons_of_pos _ (by simpa using hk')]
    · rw [List.cons_append, List.find?_cons_of_neg _ (by simpa using hk'),
        List.find?_cons_of_neg _ (by simpa using hk')]
      exact find?_append_single_ne hne as

theorem alistGet_alistSet_self {β : Type} (m : List (String × β)) (k : String)
    (v : β) : alistGet (alistSet m k v) k = some v := by
  unfold alistSet alistGet
  by_cases hh : alistHas m k
  · rw [if_pos hh, find?_setMap_self m hh]
    rfl
  · rw [Bool.not_eq_true] at hh
    rw [if_neg (by simp [hh]), find?_append_single_self m hh]
    rfl

theorem alistGet_alistSet_ne {β : Type} (m : List (String × β))
    {k k' : String} (v : β) (h : (k' == k) = false) :
    alistGet (alistSet m k v) k' = alistGet m k' := by
  unfold alistSet alistGet
  by_cases hh : alistHas m k
  · rw [if_pos hh, find?_setMap_ne h m]
  · rw [if_neg hh, find?_append_single_ne h m]

theorem alistHas_of_get {β : Type} {m : List (String × β)} {k : String}
    {v : β} (h : alistGet m k = some v) : alistHas m k = true := by
  have hmem := alistGet_eq_some_mem h
  unfold alistHas
  rw [List.any_eq_true]
  exact ⟨(k, v), hmem, by simp⟩

theorem alistGet_alistDelete_self {β : Type} (m : List (String × β))
    (k : String) : alistGet (alistDelete m k) k = none := by
  unfold alistGet
  rw [Option.map_eq_none', List.find?_eq_none]
  intro e he
  unfold alistDelete at he
  have := (List.mem_filter.mp he).2
  simpa using this

theorem mem_alistDelete {β : Type} {m : List (String × β)} {k : String}
    {e : String × β} (h : e ∈ alistDelete m k) :
    e ∈ m ∧ (e.1 == k) = false := by
  unfold alistDelete at h
  have := List.mem_filter.mp h
  exact ⟨this.1, by simpa using this.2⟩

/-! ### Store lemmas -/

theorem storeFind_id {store : List DocumentRecord} {id : DocId}
    {d : DocumentRecord} (h : storeFind store id = some d) :
    d.id = id ∧ d ∈ store := by
  unfold storeFind at h
  exact ⟨by simpa using List.find?_some h, List.mem_of_find?_eq_some h⟩

theorem storeFind_storeUpdate_self {id : DocId} {doc : DocumentRecord}
    (hid : doc.id = id) :
    ∀ store : List DocumentRecord, (storeFind store id).isSome = true →
      storeFind (storeUpdate store id doc) id = some doc
  | [], h => by simp [storeFind] at h
  | a :: as, h => by
    unfold storeFind storeUpdate
    by_cases ha : (a.id == id) = true
    · simp only [List.map_cons, if_pos ha]
      rw [List.find?_cons_of_pos _ (by simp [hid])]
    · simp only [List.map_cons, if_neg ha]
      rw [List.find?_cons_of_neg _ (by simpa using ha)]
      have h' : (storeFind as id).isSome = true := by
        unfold storeFind at h ⊢
        rw [List.find?_cons_of_neg _ (by simpa using ha)] at h
        exact h
      exact storeFind_storeUpdate_self hid as h'

theorem storeFind_storeSetData {id : DocId} {data : String} :
    ∀ {store : List DocumentRecord} {d0 : DocumentRecord},
      storeFind store id = some d0 →
      storeFind (storeSetData store id data) id =
        some { d0 with data := data }
  | [], _, h => by simp [storeFind] at h
  | a :: as, d0, h => by
    unfold storeFind storeSetData
    unfold storeFind at h
    by_cases ha : (a.id == id) = true
    · have h1 : List.find? (fun d => d.id == id) (a :: as) = some a :=
        List.find?_cons_of_pos _ ha
      rw [h1] at h
      have had : a = d0 := by simpa using h
      subst had
      simp only [List.map_cons, if_pos ha]
      have h2 : List.find? (fun d => d.id == id)
          ({ a with data := data } ::
            (as.map (fun d =>
              if (d.id == id) = true then { d with data := data } else d))) =
          some { a with data := data } :=
        List.find?_cons_of_pos _ ha
      rw [h2]
    · have hna : ¬((fun d => d.id == id) a = true) := by simpa using ha
      have h1 : List.find? (fun d => d.id == id) (a :: as) =
          List.find? (fun d => d.id == id) as :=
        List.find?_cons_of_neg _ hna
      rw [h1] at h
      simp only [List.map_cons, if_neg ha]
      have h2 : List.find? (fun d => d.id == id)
          (a :: (as.map (fun d =>
            if (d.id == id) = true then { d with data := data } else d))) =
          List.find? (fun d => d.id == id)
            (as.map (fun d =>
              if (d.id == id) = true then { d with data := data } else d)) :=
        List.find?_cons_of_neg _ hna
      rw [h2]
      exact storeFind_storeSetData h

theorem storeFind_append_new {id : DocId} {doc : DocumentRecord}
    (hid : (doc.id == id) = true) :
    ∀ store : List DocumentRecord, storeFind store id = none →
      storeFind (store ++ [doc]) id = some doc
  | [], _ => by
    unfold storeFind
    rw [List.nil_append]
    exact List.find?_cons_of_pos _ hid
  | a :: as, h => by
    unfold storeFind at h ⊢
    cases ha : (a.id == id) with
    | true =>
      have h1 : List.find? (fun d => d.id == id) (a :: as) = some a :=
        List.find?_cons_of_pos _ ha
      rw [h1] at h
      simp at h
    | false =>
      have hna : ¬((fun d => d.id == id) a = true) := by simp [ha]
      have h1 : List.find? (fun d => d.id == id) (a :: as) =
          List.find? (fun d => d.id == id) as :=
        List.find?_cons_of_neg _ hna
      rw [h1] at h
      have h2 : List.find? (fun d => d.id == id) (a :: (as ++ [doc])) =
          List.find? (fun d => d.id == id) (as ++ [doc]) :=
        List.find?_cons_of_neg _ hna
      rw [List.cons_append, h2]
      exact storeFind_append_new hid as h

/-! ### Key-list lemmas -/

theorem keys_setMap {β : Type} {k : String} {v : β} :
    ∀ m : List (String × β),
      ((m.map (fun e => if e.1 == k then (k, v) else e)).map
        (fun e => e.1)) = m.map (fun e => e.1)
  | [] => rfl
  | a :: as => by
    by_cases hk : (a.1 == k) = true
    · have ha : a.1 = k := by simpa using hk
      simp only [List.map_cons, if_pos hk, keys_setMap as]
      rw [ha]
    · simp only [List.map_cons, if_neg hk, keys_setMap as]

theorem keys_alistSet_nodup {β : Type} {m : List (String × β)} {k : String}
    {v : β} (h : (m.map (fun e => e.1)).Nodup) :
    ((alistSet m k v).map (fun e => e.1)).Nodup := by
  unfold alistSet
  by_cases hh : alistHas m k
  · rw [if_pos hh, keys_setMap m]
    exact h
  · rw [Bool.not_eq_true] at hh
    rw [if_neg (by simp [hh]), List.map_append]
    rw [List.nodup_append]
    refine ⟨h, by simp, ?_⟩
    intro a ha hb
    simp only [List.map_cons, List.map_nil, List.mem_singleton] at hb
    subst hb
    rcases List.mem_map.mp ha with ⟨e, hem, hek⟩
    have := alistHas_false_not_key hh e hem
    rw [hek] at this
    simp at this

theorem keys_alistDelete_nodup {β : Type} {m : List (String × β)}
    {k : String} (h : (m.map (fun e => e.1)).Nodup) :
    ((alistDelete m k).map (fun e => e.1)).Nodup := by
  unfold alistDelete
  exact h.sublist (List.Sublist.map _ (List.filter_sublist m))

/-! ### Registry invariants over whole runs (claims C5, C6) -/

theorem saveDocument_registry_eq (w : World) (conn : ConnState)
    (data : String) (outcome : StoreOutcome) :
    (saveDocument w conn data outcome).world.documentUsers =
      w.documentUsers := by
  unfold saveDocument
  split
  · split
    · split <;> rfl
    · rfl
  · rfl

/-- Denied joins touch the store (fetch-or-create) but nothing else. -/
theorem getDocument_denied {w : World} {conn : ConnState} {sid : SocketId}
    {user : AuthUser} {documentId : DocId} {shareToken : Option String}
    {color : String}
    (hacc : accessGranted user shareToken
      (findOrCreateDocument w.store documentId).1 = false) :
    getDocument w conn sid user documentId shareToken color =
      { world := { store := (findOrCreateDocument w.store documentId).2
                   documentUsers := w.documentUsers }
        conn := conn
        emits := [accessDeniedEmit sid] } := by
  simp only [getDocument, hacc, Bool.not_false, if_true]

/-- Granted joins redeem the share link when due and register the socket. -/
theorem getDocument_granted {w : World} {conn : ConnState} {sid : SocketId}
    {user : AuthUser} {documentId : DocId} {shareToken : Option String}
    {color : String}
    (hacc : accessGranted user shareToken
      (findOrCreateDocument w.store documentId).1 = true) :
    getDocument w conn sid user documentId shareToken color =
      { world :=
          { store :=
              if redeems user shareToken
                  (findOrCreateDocument w.store documentId).1 then
                storeUpdate (findOrCreateDocument w.store documentId).2
                  documentId
                  (redeemShare user shareToken
                    (findOrCreateDocument w.store documentId).1)
              else (findOrCreateDocument w.store documentId).2
            documentUsers := joinRegistry w.documentUsers documentId sid
              (joinUserInfo sid user color) }
        conn :=
          { currentDocumentId := some documentId
            currentUserInfo := some (joinUserInfo sid user color) }
        emits :=
          [ { target := .only sid
              event := .loadDocument
                (redeemShare user shareToken
                  (findOrCreateDocument w.store documentId).1).data },
            { target := .room documentId
              event := .userJoined
                { userId := user.id
                  username := user.username
                  color := color }
                (publicRoster (joinRoster w.documentUsers documentId sid
                  (joinUserInfo sid user color))) } ] } := by
  simp only [getDocument, hacc, Bool.not_true, Bool.false_eq_true, if_false]
  rfl

theorem mem_ensureRoom {reg : Registry} {documentId : DocId}
    {e : DocId × Roster} (h : e ∈ ensureRoom reg documentId) :
    e = (documentId, []) ∨ e ∈ reg := by
  unfold ensureRoom at h
  by_cases hh : alistHas reg documentId
  · rw [if_pos hh] at h
    right; exact h
  · rw [if_neg hh] at h
    rcases mem_alistSet h with h1 | ⟨h1, _⟩
    · left; exact h1
    · right; exact h1

theorem mem_joinRegistry {reg : Registry} {documentId : DocId}
    {sid : SocketId} {info : UserInfo} {e : DocId × Roster}
    (h : e ∈ joinRegistry reg documentId sid info) :
    e = (documentId, joinRoster reg documentId sid info) ∨
      (e ∈ reg ∧ (e.1 == documentId) = false) := by
  unfold joinRegistry at h
  rcases mem_alistSet h with h1 | ⟨h1, hkey⟩
  · left; exact h1
  · right
    rcases mem_ensureRoom h1 with h2 | h2
    · exfalso
      rw [h2] at hkey
      simp at hkey
    · exact ⟨h2, hkey⟩

theorem joinRoster_ne_nil (reg : Registry) (documentId : DocId)
    (sid : SocketId) (info : UserInfo) :
    joinRoster reg documentId sid info ≠ [] :=
  alistSet_ne_nil _ _ _

theorem joinRoster_keys_nodup {reg : Registry} {documentId : DocId}
    {sid : SocketId} {info : UserInfo}
    (hw : ∀ e ∈ reg, (rosterKeys e.2).Nodup) :
    (rosterKeys (joinRoster reg documentId sid info)).Nodup := by
  unfold joinRoster
  cases hg : alistGet (ensureRoom reg documentId) documentId with
  | none =>
    exact keys_alistSet_nodup (by simp)
  | some us =>
    have hmem := alistGet_eq_some_mem hg
    rcases mem_ensureRoom hmem with h1 | h1
    · have : us = [] := by
        have := congrArg Prod.snd h1
        simpa using this
      subst this
      exact keys_alistSet_nodup (by simp)
    · exact keys_alistSet_nodup (hw _ h1)

/-- Registry effect of a join: untouched rooms keep their rosters; the
    joined room gets a nonempty roster with unique keys. -/
theorem mem_getDocument_registry {w : World} {conn : ConnState}
    {sid : SocketId} {user : AuthUser} {documentId : DocId}
    {shareToken : Option String} {color : String} {e : DocId × Roster}
    (he : e ∈ (getDocument w conn sid user documentId shareToken
      color).world.documentUsers) :
    e = (documentId,
          joinRoster w.documentUsers documentId sid
            (joinUserInfo sid user color)) ∨ e ∈ w.documentUsers := by
  cases hacc : accessGranted user shareToken
      (findOrCreateDocument w.store documentId).1 with
  | false =>
    rw [getDocument_denied hacc] at he
    right; exact he
  | true =>
    rw [getDocument_granted hacc] at he
    rcases mem_joinRegistry he with h1 | ⟨h1, _⟩
    · left; exact h1
    · right; exact h1

/-- Registry effect of a disconnect: every room either survives untouched or
    is the disconnected room with the socket's entry filtered out (and kept
    only when that leaves other participants). -/
theorem mem_disconnect_registry {w : World} {conn : ConnState}
    {sid : SocketId} {e : DocId × Roster}
    (he : e ∈ (disconnect w conn sid).world.documentUsers) :
    e ∈ w.documentUsers ∨
      ∃ d users, conn.currentDocumentId = some d ∧
        alistGet w.documentUsers d = some users ∧
        e = (d, alistDelete users sid) ∧ alistDelete users sid ≠ [] := by
  unfold disconnect at he
  by_cases ht : jsTruthy conn.currentDocumentId = true
  · cases hd : conn.currentDocumentId with
    | none => rw [hd] at ht; simp [jsTruthy] at ht
    | some d =>
      rw [hd] at ht
      simp only [hd, ht, if_true] at he
      cases hg : alistGet w.documentUsers d with
      | none =>
        simp only [hg] at he
        left; exact he
      | some users =>
        simp only [hg] at he
        by_cases hhas : alistHas users sid = true
        · simp only [hhas, if_true] at he
          by_cases hlen : ((alistDelete users sid).length == 0) = true
          · simp only [hlen, if_true] at he
            rcases mem_alistDelete he with ⟨h1, hkey⟩
            rcases mem_alistSet h1 with h2 | ⟨h2, _⟩
            · exfalso; rw [h2] at hkey; simp at hkey
            · left; exact h2
          · rw [Bool.not_eq_true] at hlen
            simp only [hlen, Bool.false_eq_true, if_false] at he
            rcases mem_alistSet he with h2 | ⟨h2, _⟩
            · right
              refine ⟨d, users, rfl, hg, h2, ?_⟩
              intro hnil
              rw [hnil] at hlen
              simp at hlen
            · left; exact h2
        · rw [Bool.not_eq_true] at hhas
          simp only [hhas, Bool.false_eq_true, if_false] at he
          by_cases hlen : (users.length == 0) = true
          · simp only [hlen, if_true] at he
            rcases mem_alistDelete he with ⟨h1, hkey⟩
            rcases mem_alistSet h1 with h2 | ⟨h2, _⟩
            · exfalso; rw [h2] at hkey; simp at hkey
            · left; exact h2
          · rw [Bool.not_eq_true] at hlen
            simp only [hlen, Bool.false_eq_true, if_false] at he
            rcases mem_alistSet he with h2 | ⟨h2, _⟩
            · left
              rw [h2]
              exact alistGet_eq_some_mem hg
            · left; exact h2
  · rw [Bool.not_eq_true] at ht
    simp only [ht, Bool.false_eq_true, if_false] at he
    left; exact he

/-! Step-level preservation of both registry invariants. -/

theorem stepOp_noEmptyRooms {n : Net} (op : Op) (hw : noEmptyRooms n) :
    noEmptyRooms (stepOp n op) := by
  cases op with
  | join sid user documentId shareToken color =>
    intro e he
    rcases mem_getDocument_registry he with h1 | h1
    · rw [h1]
      exact joinRoster_ne_nil _ _ _ _
    · exact hw e h1
  | send sid delta => exact hw
  | save sid data outcome =>
    intro e he
    rw [show (stepOp n (.save sid data outcome)).world.documentUsers =
        n.world.documentUsers from
      saveDocument_registry_eq n.world (connOf n.conns sid) data outcome]
      at he
    exact hw e he
  | disc sid =>
    intro e he
    rcases mem_disconnect_registry he with h1 | ⟨d, users, _, _, heq, hne⟩
    · exact hw e h1
    · rw [heq]
      exact hne

theorem stepOp_rosterKeysUnique {n : Net} (op : Op)
    (hw : rosterKeysUnique n) : rosterKeysUnique (stepOp n op) := by
  cases op with
  | join sid user documentId shareToken color =>
    intro e he
    rcases mem_getDocument_registry he with h1 | h1
    · rw [h1]
      exact joinRoster_keys_nodup hw
    · exact hw e h1
  | send sid delta => exact hw
  | save sid data outcome =>
    intro e he
    rw [show (stepOp n (.save sid data outcome)).world.documentUsers =
        n.world.documentUsers from
      saveDocument_registry_eq n.world (connOf n.conns sid) data outcome]
      at he
    exact hw e he
  | disc sid =>
    intro e he
    rcases mem_disconnect_registry he with h1 | ⟨d, users, _, hg, heq, _⟩
    · exact hw e h1
    · rw [heq]
      exact keys_alistDelete_nodup (hw (d, users) (alistGet_eq_some_mem hg))

theorem foldl_stepOp_noEmptyRooms :
    ∀ (ops : List Op) (n : Net), noEmptyRooms n →
      noEmptyRooms (ops.foldl stepOp n)
  | [], _, hw => hw
  | op :: ops, n, hw =>
    foldl_stepOp_noEmptyRooms ops (stepOp n op) (stepOp_noEmptyRooms op hw)

theorem foldl_stepOp_rosterKeysUnique :
    ∀ (ops : List Op) (n : Net), rosterKeysUnique n →
      rosterKeysUnique (ops.foldl stepOp n)
  | [], _, hw => hw
  | op :: ops, n, hw =>
    foldl_stepOp_rosterKeysUnique ops (stepOp n op)
      (stepOp_rosterKeysUnique op hw)

/-- C5: after every sequence of operations (joins, relays, saves,
    disconnects) run against any initial database, every room present in
    the session registry has at least one participant: the room whose last
    participant leaves is removed within the same disconnect handling, so
    no empty room persists in memory. -/
theorem claim_C5_no_empty_rooms (store0 : List DocumentRecord)
    (ops : List Op) : noEmptyRooms (runOps store0 ops) :=
  foldl_stepOp_noEmptyRooms ops (netStart store0)
    (fun e he => absurd he (List.not_mem_nil e))

/-- C6 counterexample: a connection that joins `docA` and then `docB`
    (both joins authorized: the user owns both documents) is still present
    in `docA`'s roster after joining `docB`, so it sits in two rosters at
    once — the handler never removes it from the first room. -/
theorem claim_C6_counterexample :
    alistHas ((alistGet (runOps
      [ { id := "docA", data := "", title := "t", owner := some "u1",
          collaborators := [], shareLink := none },
        { id := "docB", data := "", title := "t", owner := some "u1",
          collaborators := [], shareLink := none } ]
      [ .join "s1" { id := "u1", username := "alice", email := "a@b" }
          "docA" none "c1",
        .join "s1" { id := "u1", username := "alice", email := "a@b" }
          "docB" none "c2" ]).world.documentUsers "docA").getD [])
      "s1" = true ∧
    alistHas ((alistGet (runOps
      [ { id := "docA", data := "", title := "t", owner := some "u1",
          collaborators := [], shareLink := none },
        { id := "docB", data := "", title := "t", owner := some "u1",
          collaborators := [], shareLink := none } ]
      [ .join "s1" { id := "u1", username := "alice", email := "a@b" }
          "docA" none "c1",
        .join "s1" { id := "u1", username := "alice", email := "a@b" }
          "docB" none "c2" ]).world.documentUsers "docB").getD [])
      "s1" = true := by
  decide

/-- C6 (amended): within each room's roster there is exactly one
    Participant per connection (the roster is keyed by the connection id,
    so a repeat join of the same document overwrites instead of
    duplicating); however a connection that joins a second document is NOT
    removed from the first document's roster and can appear in several
    rosters at once. -/
theorem claim_C6_amended (store0 : List DocumentRecord) (ops : List Op) :
    rosterKeysUnique (runOps store0 ops) :=
  foldl_stepOp_rosterKeysUnique ops (netStart store0)
    (fun e he => absurd he (List.not_mem_nil e))

/-! ### The access decision (claim C1) -/

theorem isOwner_iff (user : AuthUser) (doc : DocumentRecord) :
    isOwner user doc = true ↔ doc.owner = some user.id := by
  unfold isOwner
  cases doc.owner with
  | none => simp
  | some o => simp

theorem collabMatches_iff (uid : UserId) (c : Collaborator) :
    collabMatches uid c = true ↔ c.user = some uid := by
  unfold collabMatches
  cases c.user with
  | none => simp
  | some cu => simp

theorem isCollaborator_iff (user : AuthUser) (doc : DocumentRecord) :
    isCollaborator user doc = true ↔
      ∃ c ∈ doc.collaborators, c.user = some user.id := by
  unfold isCollaborator
  rw [List.any_eq_true]
  constructor
  · rintro ⟨c, hc, hm⟩
    exact ⟨c, hc, (collabMatches_iff _ _).mp hm⟩
  · rintro ⟨c, hc, hm⟩
    exact ⟨c, hc, (collabMatches_iff _ _).mpr hm⟩

theorem hasValidShareToken_iff (shareToken : Option String)
    (doc : DocumentRecord) (htok : noEmptyGrantToken doc = true) :
    hasValidShareToken shareToken doc = true ↔
      ∃ t sl, shareToken = some t ∧ doc.shareLink = some sl ∧
        sl.enabled = true ∧ sl.token = some t := by
  cases shareToken with
  | none => simp [hasValidShareToken, jsTruthy]
  | some t =>
    cases hsl : doc.shareLink with
    | none => simp [hasValidShareToken, jsTruthy, hsl]
    | some sl =>
      have htok' : (sl.token == some "") = false := by
        unfold noEmptyGrantToken at htok
        rw [hsl] at htok
        simpa using htok
      constructor
      · intro h
        simp only [hasValidShareToken, jsTruthy, hsl,
          Bool.and_eq_true] at h
        obtain ⟨hne, hen, htk⟩ := h
        exact ⟨t, sl, rfl, rfl, hen, by simpa using htk⟩
      · rintro ⟨t', sl', ht', hsl', hen, htk⟩
        obtain rfl : t = t' := by simpa using ht'
        obtain rfl : sl = sl' := by simpa using hsl'
        have hne : (t == "") = false := by
          cases hbe : (t == "") with
          | false => rfl
          | true =>
            have ht0 : t = "" := by simpa using hbe
            subst ht0
            rw [htk] at htok'
            simp at htok'
        simp [hasValidShareToken, jsTruthy, hsl, hne, hen, htk]

/-- The code's access decision coincides with the claim's description,
    given that stored grant tokens are never the empty string. -/
theorem accessGranted_iff_spec (user : AuthUser) (shareToken : Option String)
    (doc : DocumentRecord) (htok : noEmptyGrantToken doc = true) :
    accessGranted user shareToken doc = true ↔
      specAccessGranted user shareToken doc := by
  unfold accessGranted specAccessGranted
  simp only [Bool.or_eq_true]
  rw [isOwner_iff, isCollaborator_iff, hasValidShareToken_iff _ _ htok]
  exact or_assoc

/-- C1: on a join request, access is granted iff the identity is the owner,
    or is listed as a collaborator, or supplies a share token equal to the
    enabled grant's token; in every other case the handler answers with the
    access-denied error event (and only with it). -/
theorem claim_C1_access_decision (w : World) (conn : ConnState)
    (sid : SocketId) (user : AuthUser) (documentId : DocId)
    (shareToken : Option String) (color : String)
    (htok : noEmptyGrantToken
      (findOrCreateDocument w.store documentId).1 = true) :
    (accessGranted user shareToken
        (findOrCreateDocument w.store documentId).1 = true ↔
      specAccessGranted user shareToken
        (findOrCreateDocument w.store documentId).1) ∧
    ((getDocument w conn sid user documentId shareToken color).emits =
        [accessDeniedEmit sid] ↔
      ¬ specAccessGranted user shareToken
        (findOrCreateDocument w.store documentId).1) := by
  have hiff := accessGranted_iff_spec user shareToken _ htok
  refine ⟨hiff, ?_⟩
  cases hacc : accessGranted user shareToken
      (findOrCreateDocument w.store documentId).1 with
  | false =>
    rw [getDocument_denied hacc]
    constructor
    · intro _ hs
      rw [hiff.mpr hs] at hacc
      exact Bool.true_eq_false.mp hacc
    · intro _
      rfl
  | true =>
    rw [getDocument_granted hacc]
    constructor
    · intro hemits
      simp [accessDeniedEmit] at hemits
    · intro hns
      exact absurd (hiff.mp hacc) hns

/-- Witness for C1: the owner of `d1` joins without a token; the decision
    equivalence and the denial characterization hold at this input. -/
theorem claim_C1_witness :
    noEmptyGrantToken (findOrCreateDocument worldD.store "d1").1 = true ∧
    ((accessGranted aliceU1 none
        (findOrCreateDocument worldD.store "d1").1 = true ↔
      specAccessGranted aliceU1 none
        (findOrCreateDocument worldD.store "d1").1) ∧
    ((getDocument worldD ConnState.fresh "s1" aliceU1 "d1" none "c").emits =
        [accessDeniedEmit "s1"] ↔
      ¬ specAccessGranted aliceU1 none
        (findOrCreateDocument worldD.store "d1").1)) :=
  ⟨by decide,
    claim_C1_access_decision worldD ConnState.fresh "s1" aliceU1 "d1" none
      "c" (by decide)⟩

/-! ### Denied joins leave the session state alone (claims C2, C10) -/

/-- A connection that never completed a join has `currentDocumentId = null`,
    so its disconnect handler does nothing. -/
theorem disconnect_nojoin {w : World} {conn : ConnState} {sid : SocketId}
    (hfresh : conn.currentDocumentId = none) :
    disconnect w conn sid = { world := w, emits := [] } := by
  unfold disconnect
  rw [hfresh]
  simp [jsTruthy]

/-- C2: when a join request fails authorization, the permission-denied
    event is the only emit and goes to the requesting socket alone, the
    session registry is untouched, the connection state is unchanged, and —
    for a connection that never joined — the subsequent disconnect leaves
    the world unchanged and emits nothing. -/
theorem claim_C2_denied_join_isolated (w : World) (conn : ConnState)
    (sid : SocketId) (user : AuthUser) (documentId : DocId)
    (shareToken : Option String) (color : String)
    (hfresh : conn.currentDocumentId = none)
    (hacc : accessGranted user shareToken
      (findOrCreateDocument w.store documentId).1 = false) :
    (getDocument w conn sid user documentId shareToken color).emits =
      [accessDeniedEmit sid] ∧
    (getDocument w conn sid user documentId shareToken
      color).world.documentUsers = w.documentUsers ∧
    (getDocument w conn sid user documentId shareToken color).conn = conn ∧
    disconnect (getDocument w conn sid user documentId shareToken
        color).world
      (getDocument w conn sid user documentId shareToken color).conn sid =
      { world := (getDocument w conn sid user documentId shareToken
          color).world
        emits := [] } := by
  rw [getDocument_denied hacc]
  exact ⟨rfl, rfl, rfl, disconnect_nojoin hfresh⟩

/-- Witness for C2: `bob` (neither owner nor collaborator, no token) is
    denied on `d1`. -/
theorem claim_C2_witness :
    (ConnState.fresh.currentDocumentId = none ∧
      accessGranted bobU2 none
        (findOrCreateDocument worldD.store "d1").1 = false) ∧
    ((getDocument worldD ConnState.fresh "s2" bobU2 "d1" none "c").emits =
        [accessDeniedEmit "s2"] ∧
    (getDocument worldD ConnState.fresh "s2" bobU2 "d1" none
      "c").world.documentUsers = worldD.documentUsers ∧
    (getDocument worldD ConnState.fresh "s2" bobU2 "d1" none "c").conn =
      ConnState.fresh ∧
    disconnect (getDocument worldD ConnState.fresh "s2" bobU2 "d1" none
        "c").world
      (getDocument worldD ConnState.fresh "s2" bobU2 "d1" none "c").conn
      "s2" =
      { world := (getDocument worldD ConnState.fresh "s2" bobU2 "d1" none
          "c").world
        emits := [] }) :=
  ⟨⟨rfl, by decide⟩,
    claim_C2_denied_join_isolated worldD ConnState.fresh "s2" bobU2 "d1"
      none "c" rfl (by decide)⟩

/-- A record fresh out of `Document.create({_id, data: ""})` denies every
    request: it has no owner, no collaborators and no share link. -/
theorem accessGranted_newDocument (user : AuthUser) (st : Option String)
    (id : DocId) : accessGranted user st (newDocument id) = false := by
  unfold accessGranted isOwner isCollaborator hasValidShareToken newDocument
  simp

/-- C10: a join request naming an id absent from the store runs the
    fetch-or-create before the permission check, so even a denied join
    durably creates the record (empty payload, no owner). -/
theorem claim_C10_denied_join_creates_record (w : World) (conn : ConnState)
    (sid : SocketId) (user : AuthUser) (documentId : DocId)
    (shareToken : Option String) (color : String)
    (habs : storeFind w.store documentId = none) :
    storeFind (getDocument w conn sid user documentId shareToken
        color).world.store documentId = some (newDocument documentId) ∧
    (newDocument documentId).data = "" ∧
    (newDocument documentId).owner = none ∧
    (getDocument w conn sid user documentId shareToken color).emits =
      [accessDeniedEmit sid] := by
  have hfc : findOrCreateDocument w.store documentId =
      (newDocument documentId, w.store ++ [newDocument documentId]) := by
    unfold findOrCreateDocument
    rw [habs]
  have hacc : accessGranted user shareToken
      (findOrCreateDocument w.store documentId).1 = false := by
    rw [hfc]
    exact accessGranted_newDocument user shareToken documentId
  rw [getDocument_denied hacc, hfc]
  refine ⟨?_, rfl, rfl, rfl⟩
  exact storeFind_append_new (by simp [newDocument]) w.store habs

/-- Witness for C10: joining the absent id `ghost` creates its record even
    though the request is denied. -/
theorem claim_C10_witness :
    storeFind worldD.store "ghost" = none ∧
    (storeFind (getDocument worldD ConnState.fresh "s3" bobU2 "ghost" none
        "c").world.store "ghost" = some (newDocument "ghost") ∧
    (newDocument "ghost").data = "" ∧
    (newDocument "ghost").owner = none ∧
    (getDocument worldD ConnState.fresh "s3" bobU2 "ghost" none "c").emits =
      [accessDeniedEmit "s3"]) :=
  ⟨by decide,
    claim_C10_denied_join_creates_record worldD ConnState.fresh "s3" bobU2
      "ghost" none "c" (by decide)⟩

/-! ### Relay delivery (claim C4) -/

/-- C4: a joined connection's send-changes, cursor-move and title-change
    events each produce exactly one broadcast targeted at the sender's room
    minus the sender; interpreting that target against any registry, the
    sender is never among the recipients and every other member of the
    room's roster is. -/
theorem claim_C4_relay_excludes_sender (reg : Registry) (conn : ConnState)
    (sid : SocketId) (d : DocId) (dl : String) (ttl : String)
    (cd : CursorData) (i : Int) (info : UserInfo)
    (hd : conn.currentDocumentId = some d)
    (hne : (d == "") = false)
    (hinfo : conn.currentUserInfo = some info)
    (hidx : cd.index = some i)
    (httl : (ttl == "") = false) :
    sendChanges conn sid (some dl) =
      [{ target := .roomExcept d sid, event := .receiveChanges dl }] ∧
    cursorMove conn sid (some cd) =
      [{ target := .roomExcept d sid
         event := .cursorUpdate (cursorPayload cd info) }] ∧
    titleChange conn sid ttl =
      [{ target := .roomExcept d sid, event := .titleUpdate ttl }] ∧
    sid ∉ recipientsOf reg (.roomExcept d sid) ∧
    (∀ m ∈ rosterKeys ((alistGet reg d).getD []), m ≠ sid →
      m ∈ recipientsOf reg (.roomExcept d sid)) ∧
    (∀ m ∈ recipientsOf reg (.roomExcept d sid),
      m ∈ rosterKeys ((alistGet reg d).getD [])) := by
  refine ⟨?_, ?_, ?_, ?_, ?_, ?_⟩
  · simp [sendChanges, hd, jsTruthy, hne]
  · simp [cursorMove, hidx, hd, hinfo, jsTruthy, hne]
  · simp [titleChange, httl, hd, jsTruthy, hne]
  · intro hmem
    simp only [recipientsOf] at hmem
    have := (List.mem_filter.mp hmem).2
    simp at this
  · intro m hm hmne
    simp only [recipientsOf]
    refine List.mem_filter.mpr ⟨hm, ?_⟩
    have : (m == sid) = false := beq_eq_false_iff_ne.mpr hmne
    simp [this]
  · intro m hm
    simp only [recipientsOf] at hm
    exact (List.mem_filter.mp hm).1

/-- Witness for C4: a two-member room; the second member receives each
    relayed event, the sender does not. -/
theorem claim_C4_witness :
    ((({ currentDocumentId := some "d1"
         currentUserInfo := some { socketId := "s1", userId := "u1"
                                   username := "alice", email := "a@b"
                                   color := "#f00" } } :
        ConnState).currentDocumentId = some "d1") ∧
      (("d1" : String) == "") = false ∧
      (({ currentDocumentId := some "d1"
          currentUserInfo := some { socketId := "s1", userId := "u1"
                                    username := "alice", email := "a@b"
                                    color := "#f00" } } :
        ConnState).currentUserInfo =
        some { socketId := "s1", userId := "u1", username := "alice"
               email := "a@b", color := "#f00" }) ∧
      (({ index := some 3, length := some 0, userId := none
          username := none, color := none } : CursorData).index =
        some 3) ∧
      (("T" : String) == "") = false) ∧
    (sendChanges
        { currentDocumentId := some "d1"
          currentUserInfo := some { socketId := "s1", userId := "u1"
                                    username := "alice", email := "a@b"
                                    color := "#f00" } } "s1" (some "delta") =
      [{ target := .roomExcept "d1" "s1"
         event := .receiveChanges "delta" }] ∧
    cursorMove
        { currentDocumentId := some "d1"
          currentUserInfo := some { socketId := "s1", userId := "u1"
                                    username := "alice", email := "a@b"
                                    color := "#f00" } } "s1"
        (some { index := some 3, length := some 0, userId := none
                username := none, color := none }) =
      [{ target := .roomExcept "d1" "s1"
         event := .cursorUpdate (cursorPayload
           { index := some 3, length := some 0, userId := none
             username := none, color := none }
           { socketId := "s1", userId := "u1", username := "alice"
             email := "a@b", color := "#f00" }) }] ∧
    titleChange
        { currentDocumentId := some "d1"
          currentUserInfo := some { socketId := "s1", userId := "u1"
                                    username := "alice", email := "a@b"
                                    color := "#f00" } } "s1" "T" =
      [{ target := .roomExcept "d1" "s1", event := .titleUpdate "T" }] ∧
    "s1" ∉ recipientsOf
      [("d1", [("s1", { socketId := "s1", userId := "u1"
                        username := "alice", email := "a@b"
                        color := "#f00" }),
               ("s2", { socketId := "s2", userId := "u2"
                        username := "bob", email := "b@b"
                        color := "#0f0" })])]
      (.roomExcept "d1" "s1") ∧
    (∀ m ∈ rosterKeys ((alistGet
        [("d1", [("s1", { socketId := "s1", userId := "u1"
                          username := "alice", email := "a@b"
                          color := "#f00" }),
                 ("s2", { socketId := "s2", userId := "u2"
                          username := "bob", email := "b@b"
                          color := "#0f0" })])] "d1").getD []),
      m ≠ "s1" →
      m ∈ recipientsOf
        [("d1", [("s1", { socketId := "s1", userId := "u1"
                          username := "alice", email := "a@b"
                          color := "#f00" }),
                 ("s2", { socketId := "s2", userId := "u2"
                          username := "bob", email := "b@b"
                          color := "#0f0" })])]
        (.roomExcept "d1" "s1")) ∧
    (∀ m ∈ recipientsOf
        [("d1", [("s1", { socketId := "s1", userId := "u1"
                          username := "alice", email := "a@b"
                          color := "#f00" }),
                 ("s2", { socketId := "s2", userId := "u2"
                          username := "bob", email := "b@b"
                          color := "#0f0" })])]
        (.roomExcept "d1" "s1"),
      m ∈ rosterKeys ((alistGet
        [("d1", [("s1", { socketId := "s1", userId := "u1"
                          username := "alice", email := "a@b"
                          color := "#f00" }),
                 ("s2", { socketId := "s2", userId := "u2"
                          username := "bob", email := "b@b"
                          color := "#0f0" })])] "d1").getD []))) :=
  ⟨⟨rfl, by decide, rfl, rfl, by decide⟩,
    claim_C4_relay_excludes_sender
      [("d1", [("s1", { socketId := "s1", userId := "u1"
                        username := "alice", email := "a@b"
                        color := "#f00" }),
               ("s2", { socketId := "s2", userId := "u2"
                        username := "bob", email := "b@b"
                        color := "#0f0" })])]
      { currentDocumentId := some "d1"
        currentUserInfo := some { socketId := "s1", userId := "u1"
                                  username := "alice", email := "a@b"
                                  color := "#f00" } }
      "s1" "d1" "delta" "T"
      { index := some 3, length := some 0, userId := none
        username := none, color := none }
      3
      { socketId := "s1", userId := "u1", username := "alice"
        email := "a@b", color := "#f00" }
      rfl (by decide) rfl rfl (by decide)⟩

/-! ### Saving (claim C7) -/

/-- C7: a save from a joined connection writes the payload as the stored
    document's current data, broadcasts the save-completed notification to
    the whole room and acknowledges `ok`; when the store update fails, the
    acknowledgment carries the failure reason, nothing is broadcast and the
    whole in-memory world (store and registry) is unchanged. -/
theorem claim_C7_save (w : World) (conn : ConnState) (d : DocId)
    (data : String) (doc0 : DocumentRecord)
    (hd : conn.currentDocumentId = some d)
    (hne : (d == "") = false)
    (hdoc : storeFind w.store d = some doc0) :
    ((saveDocument w conn data .ok).world.store =
        storeSetData w.store d data ∧
      storeFind (saveDocument w conn data .ok).world.store d =
        some { doc0 with data := data } ∧
      (saveDocument w conn data .ok).world.documentUsers =
        w.documentUsers ∧
      (saveDocument w conn data .ok).emits =
        [{ target := .room d, event := .documentSaved }] ∧
      (saveDocument w conn data .ok).ack = .ok) ∧
    (∀ msg, (saveDocument w conn data (.fail msg)).world = w ∧
      (saveDocument w conn data (.fail msg)).emits = [] ∧
      (saveDocument w conn data (.fail msg)).ack = .error msg) := by
  have hok : saveDocument w conn data .ok =
      { world := { store := storeSetData w.store d data
                   documentUsers := w.documentUsers }
        emits := [{ target := .room d, event := .documentSaved }]
        ack := .ok } := by
    unfold saveDocument
    rw [hd]
    simp [jsTruthy, hne]
  have hfail : ∀ msg, saveDocument w conn data (.fail msg) =
      { world := w, emits := [], ack := .error msg } := by
    intro msg
    unfold saveDocument
    rw [hd]
    simp [jsTruthy, hne]
  refine ⟨⟨?_, ?_, ?_, ?_, ?_⟩, ?_⟩
  · rw [hok]
  · rw [hok]
    exact storeFind_storeSetData hdoc
  · rw [hok]
  · rw [hok]
  · rw [hok]
  · intro msg
    rw [hfail msg]
    exact ⟨rfl, rfl, rfl⟩

/-- Witness for C7 at a joined connection on `d1`. -/
theorem claim_C7_witness :
    (({ currentDocumentId := some "d1", currentUserInfo := none } :
        ConnState).currentDocumentId = some "d1" ∧
      (("d1" : String) == "") = false ∧
      storeFind worldD.store "d1" = some docD1) ∧
    (((saveDocument worldD
          { currentDocumentId := some "d1", currentUserInfo := none }
          "new-data" .ok).world.store =
        storeSetData worldD.store "d1" "new-data" ∧
      storeFind (saveDocument worldD
          { currentDocumentId := some "d1", currentUserInfo := none }
          "new-data" .ok).world.store "d1" =
        some { docD1 with data := "new-data" } ∧
      (saveDocument worldD
          { currentDocumentId := some "d1", currentUserInfo := none }
          "new-data" .ok).world.documentUsers = worldD.documentUsers ∧
      (saveDocument worldD
          { currentDocumentId := some "d1", currentUserInfo := none }
          "new-data" .ok).emits =
        [{ target := .room "d1", event := .documentSaved }] ∧
      (saveDocument worldD
          { currentDocumentId := some "d1", currentUserInfo := none }
          "new-data" .ok).ack = .ok) ∧
    (∀ msg, (saveDocument worldD
          { currentDocumentId := some "d1", currentUserInfo := none }
          "new-data" (.fail msg)).world = worldD ∧
      (saveDocument worldD
          { currentDocumentId := some "d1", currentUserInfo := none }
          "new-data" (.fail msg)).emits = [] ∧
      (saveDocument worldD
          { currentDocumentId := some "d1", currentUserInfo := none }
          "new-data" (.fail msg)).ack = .error msg)) :=
  ⟨⟨rfl, by decide, by decide⟩,
    claim_C7_save worldD
      { currentDocumentId := some "d1", currentUserInfo := none }
      "d1" "new-data" docD1 rfl (by decide) (by decide)⟩

/-! ### Leave broadcasts (claim C8) -/

/-- C8: when a joined participant disconnects, the single user-left emit
    carries the roster with the leaver's entry removed; that roster equals
    the registry's snapshot of the room at that moment, and the emit's
    room target reaches only sockets still present in the registry's
    roster — never the leaver. -/
theorem claim_C8_leave_roster (w : World) (conn : ConnState)
    (sid : SocketId) (d : DocId) (users : Roster) (info : UserInfo)
    (hd : conn.currentDocumentId = some d)
    (hne : (d == "") = false)
    (hg : alistGet w.documentUsers d = some users)
    (hu : alistGet users sid = some info) :
    (disconnect w conn sid).emits =
      [{ target := .room d
         event := .userLeft info.userId info.username
           (publicRoster (alistDelete users sid)) }] ∧
    (∀ e ∈ alistDelete users sid, (e.1 == sid) = false) ∧
    publicRoster (alistDelete users sid) =
      publicRoster ((alistGet
        (disconnect w conn sid).world.documentUsers d).getD []) ∧
    sid ∉ recipientsOf (disconnect w conn sid).world.documentUsers
      (.room d) ∧
    (∀ k ∈ recipientsOf (disconnect w conn sid).world.documentUsers
        (.room d), k ∈ rosterKeys (alistDelete users sid)) := by
  have hhas := alistHas_of_get hu
  have heq : disconnect w conn sid =
      { world := { store := w.store
                   documentUsers :=
                     if (alistDelete users sid).length == 0 then
                       alistDelete
                         (alistSet w.documentUsers d
                           (alistDelete users sid)) d
                     else alistSet w.documentUsers d
                       (alistDelete users sid) }
        emits := [{ target := .room d
                    event := .userLeft info.userId info.username
                      (publicRoster (alistDelete users sid)) }] } := by
    unfold disconnect
    rw [hd]
    simp [jsTruthy, hne, hg, hhas, hu]
  rw [heq]
  refine ⟨rfl, ?_, ?_, ?_, ?_⟩
  · intro e he
    exact (mem_alistDelete he).2
  · by_cases hlen : ((alistDelete users sid).length == 0) = true
    · have hnil : alistDelete users sid = [] :=
        List.length_eq_zero.mp (by simpa using hlen)
      simp only [hlen, if_true]
      rw [alistGet_alistDelete_self, hnil]
      rfl
    · rw [Bool.not_eq_true] at hlen
      simp only [hlen, Bool.false_eq_true, if_false]
      rw [alistGet_alistSet_self]
      rfl
  · by_cases hlen : ((alistDelete users sid).length == 0) = true
    · simp only [hlen, if_true]
      intro hmem
      simp only [recipientsOf] at hmem
      rw [alistGet_alistDelete_self] at hmem
      simp [rosterKeys] at hmem
    · rw [Bool.not_eq_true] at hlen
      simp only [hlen, Bool.false_eq_true, if_false]
      intro hmem
      simp only [recipientsOf] at hmem
      rw [alistGet_alistSet_self] at hmem
      simp only [Option.getD_some] at hmem
      rcases List.mem_map.mp hmem with ⟨e, hein, heq2⟩
      have := (mem_alistDelete hein).2
      rw [heq2] at this
      simp at this
  · by_cases hlen : ((alistDelete users sid).length == 0) = true
    · simp only [hlen, if_true]
      intro k hk
      simp only [recipientsOf] at hk
      rw [alistGet_alistDelete_self] at hk
      simp [rosterKeys] at hk
    · rw [Bool.not_eq_true] at hlen
      simp only [hlen, Bool.false_eq_true, if_false]
      intro k hk
      simp only [recipientsOf] at hk
      rw [alistGet_alistSet_self] at hk
      simpa using hk

/-- Witness for C8: `s1` leaves the two-member room on `d1`; the user-left
    payload and recipients come out as the theorem states. -/
theorem claim_C8_witness :
    (connS1.currentDocumentId = some "d1" ∧
      (("d1" : String) == "") = false ∧
      alistGet worldRoom.documentUsers "d1" = some roomD1 ∧
      alistGet roomD1 "s1" = some infoS1) ∧
    ((disconnect worldRoom connS1 "s1").emits =
      [{ target := .room "d1"
         event := .userLeft infoS1.userId infoS1.username
           (publicRoster (alistDelete roomD1 "s1")) }] ∧
    (∀ e ∈ alistDelete roomD1 "s1", (e.1 == "s1") = false) ∧
    publicRoster (alistDelete roomD1 "s1") =
      publicRoster ((alistGet
        (disconnect worldRoom connS1 "s1").world.documentUsers
        "d1").getD []) ∧
    "s1" ∉ recipientsOf
      (disconnect worldRoom connS1 "s1").world.documentUsers (.room "d1") ∧
    (∀ k ∈ recipientsOf
        (disconnect worldRoom connS1 "s1").world.documentUsers
        (.room "d1"), k ∈ rosterKeys (alistDelete roomD1 "s1"))) :=
  ⟨⟨rfl, by decide, by decide, by decide⟩,
    claim_C8_leave_roster worldRoom connS1 "s1" "d1" roomD1 infoS1 rfl
      (by decide) (by decide) (by decide)⟩

/-! ### Cursor identity spoofing (claim C9) -/

/-- C9 fails on the code: the cursor-move handler builds the broadcast as
    `{userId, username, color, ...cursorData}`, so a client payload that
    itself carries a `userId` field overrides the sender's identity.  Here
    the joined sender is `u1` but the broadcast leaves with `userId = "u9"`
    taken from the client payload. -/
theorem claim_C9_spoofed_cursor_identity :
    cursorMove connS1 "s1"
      (some { index := some 3, length := some 0, userId := some "u9"
              username := none, color := none }) =
      [{ target := .roomExcept "d1" "s1"
         event := .cursorUpdate
           { userId := "u9", username := "alice", color := "#f00"
             index := some 3, length := some 0 } }] ∧
    infoS1.userId = "u1" ∧ ("u9" : String) ≠ "u1" :=
  ⟨rfl, rfl, by decide⟩

/-! ### Share-link redemption is idempotent (claim C3) -/

/-- C3: two successive successful joins with the same valid, enabled share
    token by an identity that starts out neither owner nor collaborator
    leave exactly one collaborator entry for that identity — the first join
    appends it, the second sees `isCollaborator` and appends nothing. -/
theorem claim_C3_redemption_idempotent (w : World)
    (conn1 conn2 : ConnState) (sid1 sid2 : SocketId) (user : AuthUser)
    (docId : DocId) (t : String) (c1 c2 : String)
    (doc0 : DocumentRecord)
    (hfound : storeFind w.store docId = some doc0)
    (hown : isOwner user doc0 = false)
    (hcol : isCollaborator user doc0 = false)
    (htok : hasValidShareToken (some t) doc0 = true) :
    collabCount (getDocument
        (getDocument w conn1 sid1 user docId (some t) c1).world
        conn2 sid2 user docId (some t) c2).world.store docId user.id =
      1 := by
  have hid : doc0.id = docId := (storeFind_id hfound).1
  have hfc1 : findOrCreateDocument w.store docId = (doc0, w.store) := by
    unfold findOrCreateDocument
    rw [hfound]
  have hacc1 : accessGranted user (some t)
      (findOrCreateDocument w.store docId).1 = true := by
    rw [hfc1]
    unfold accessGranted
    rw [htok]
    simp
  have hred1 : redeems user (some t) doc0 = true := by
    unfold redeems
    rw [htok, hown, hcol]
    rfl
  have hds1 : redeemShare user (some t) doc0 =
      { doc0 with collaborators := doc0.collaborators ++
          [{ user := some user.id
             permission :=
               match doc0.shareLink with
               | some sl => sl.permission.getD .viewer
               | none => .viewer }] } := by
    unfold redeemShare
    rw [hred1]
    rfl
  have hr1 : (getDocument w conn1 sid1 user docId (some t) c1).world.store =
      storeUpdate w.store docId (redeemShare user (some t) doc0) := by
    rw [getDocument_granted hacc1]
    simp [hfc1, hred1]
  have hfind1 : storeFind
      (storeUpdate w.store docId (redeemShare user (some t) doc0)) docId =
      some (redeemShare user (some t) doc0) := by
    apply storeFind_storeUpdate_self
    · rw [hds1]
      exact hid
    · rw [hfound]
      rfl
  have hfc2 : findOrCreateDocument
      (storeUpdate w.store docId (redeemShare user (some t) doc0)) docId =
      (redeemShare user (some t) doc0,
        storeUpdate w.store docId (redeemShare user (some t) doc0)) := by
    unfold findOrCreateDocument
    rw [hfind1]
  have hcol2 : isCollaborator user (redeemShare user (some t) doc0) =
      true := by
    rw [hds1]
    unfold isCollaborator
    simp [collabMatches]
  have hacc2 : accessGranted user (some t)
      (findOrCreateDocument
        (getDocument w conn1 sid1 user docId (some t) c1).world.store
        docId).1 = true := by
    rw [hr1, hfc2]
    unfold accessGranted
    rw [hcol2]
    simp
  have hred2 : redeems user (some t) (redeemShare user (some t) doc0) =
      false := by
    unfold redeems
    rw [hcol2]
    simp
  have hr2 : (getDocument
      (getDocument w conn1 sid1 user docId (some t) c1).world
      conn2 sid2 user docId (some t) c2).world.store =
      storeUpdate w.store docId (redeemShare user (some t) doc0) := by
    rw [getDocument_granted hacc2]
    simp only [hr1, hfc2, hred2, Bool.false_eq_true, if_false]
  have hcnt0 : doc0.collaborators.countP (collabMatches user.id) = 0 := by
    rw [List.countP_eq_zero]
    intro c hc
    unfold isCollaborator at hcol
    rw [List.any_eq_false] at hcol
    exact hcol c hc
  unfold collabCount
  rw [hr2, hfind1, hds1]
  simp [List.countP_append, hcnt0, collabMatches]

/-- Witness for C3: `bob` redeems `d2`'s enabled token twice from two
    sockets and ends up with exactly one collaborator entry. -/
theorem claim_C3_witness :
    (storeFind worldD.store "d2" = some docD2 ∧
      isOwner bobU2 docD2 = false ∧
      isCollaborator bobU2 docD2 = false ∧
      hasValidShareToken (some "tok") docD2 = true) ∧
    collabCount (getDocument
        (getDocument worldD ConnState.fresh "s7" bobU2 "d2" (some "tok")
          "cA").world
        ConnState.fresh "s8" bobU2 "d2" (some "tok") "cB").world.store
      "d2" bobU2.id = 1 :=
  ⟨⟨by decide, by decide, by decide, by decide⟩,
    claim_C3_redemption_idempotent worldD ConnState.fresh ConnState.fresh
      "s7" "s8" bobU2 "d2" "tok" "cA" "cB" docD2 (by decide) (by decide)
      (by decide) (by decide)⟩

end GDocs
